import Mathlib

/-!
Verification development for the PSRP out-of-process server
(`psrp_server/_server.py`): a shallow embedding of the transport framing,
packet codec, read loop, close/ack protocol, script-executor error policy,
host-call rendezvous, parameter extraction and pipe-name derivation,
together with theorems settling the specified properties.

Bytes are modelled as `Nat` (values 0..255); byte strings as `List Nat`;
ASCII text as `List Char` or `String`.
-/

namespace PsrpServer

/-! ## Hexadecimal and base64 rendering helpers -/

/-- The lowercase hexadecimal digit characters (Python `'%x'` formatting). -/
def hexLowerChars : List Char := "0123456789abcdef".toList

/-- The uppercase hexadecimal digit characters (Python `base64.b16encode`). -/
def hexUpperChars : List Char := "0123456789ABCDEF".toList

/-- One lowercase hex digit. -/
def hexChar (n : Nat) : Char := hexLowerChars.getD n '0'

/-- One uppercase hex digit. -/
def hexCharUpper (n : Nat) : Char := hexUpperChars.getD n '0'

/-- Fixed-width lowercase hex rendering of `n` (most significant digit first),
    as produced by Python's `'%032x' % n` style formatting. -/
def hexN (len n : Nat) : List Char :=
  (List.range len).map (fun i => hexChar (n / 16 ^ (len - 1 - i) % 16))

/-- Fixed-width uppercase hex rendering of `n`. -/
def hexNUpper (len n : Nat) : List Char :=
  (List.range len).map (fun i => hexCharUpper (n / 16 ^ (len - 1 - i) % 16))

/-- `str(uuid.UUID)`: the 32 lowercase hex digits of the 128-bit value with
    hyphens inserted after digits 8, 12, 16 and 20 (CPython `uuid.UUID.__str__`).
    The `.lower()` applied in the source is the identity on this rendering. -/
def uuidStr (g : Nat) : List Char :=
  let h := hexN 32 (g % 2 ^ 128)
  h.take 8 ++ '-' :: (h.drop 8).take 4 ++ '-' :: (h.drop 12).take 4
    ++ '-' :: (h.drop 16).take 4 ++ '-' :: h.drop 20

/-- The standard base64 alphabet used by Python's `base64.b64encode`. -/
def b64alphabet : List Char :=
  "ABCDEFGHIJKLMNOPQRSTUVWXYZabcdefghijklmnopqrstuvwxyz0123456789+/".toList

/-- Character for one 6-bit group. -/
def b64Char (n : Nat) : Char := b64alphabet.getD n 'A'

/-- Python `base64.b64encode` on a byte string: 3-byte groups become four
    alphabet characters; a trailing group of 1 or 2 bytes is padded with `=`.
    No line wrapping is performed. -/
def b64encode : List Nat → List Char
  | [] => []
  | [a] => [b64Char (a / 4), b64Char (a % 4 * 16), '=', '=']
  | [a, b] => [b64Char (a / 4), b64Char (a % 4 * 16 + b / 16), b64Char (b % 16 * 4), '=']
  | a :: b :: c :: rest =>
    b64Char (a / 4) :: b64Char (a % 4 * 16 + b / 16) :: b64Char (b % 16 * 4 + c / 64)
      :: b64Char (c % 64) :: b64encode rest

/-! ## Packet encoders (`ps_data_packet`, `ps_guid_packet`) -/

/-- `psrpcore.StreamType`. -/
inductive StreamType
  | default
  | promptResponse
deriving DecidableEq

/-- `ps_data_packet(data, stream_type, ps_guid)`: the XML `<Data>` envelope.
    `ps_guid = ps_guid or uuid.UUID(int=0)` maps a missing GUID to zero. -/
def psDataPacket (data : List Nat) (streamType : StreamType) (psGuid : Option Nat) : List Char :=
  let g := psGuid.getD 0
  let streamName :=
    if streamType = StreamType.default then "Default".toList else "PromptResponse".toList
  "<Data Stream='".toList ++ streamName ++ "' PSGuid='".toList ++ uuidStr g
    ++ "'>".toList ++ b64encode data ++ "</Data>".toList ++ ['\n']

/-- `ps_guid_packet(element, ps_guid)`: the bodyless signalling envelope. -/
def psGuidPacket (element : String) (psGuid : Option Nat) : List Char :=
  let g := psGuid.getD 0
  '<' :: element.toList ++ " PSGuid='".toList ++ uuidStr g ++ "' />".toList ++ ['\n']

/-! ## Read loop framing (`OutOfProcTransport.run`) -/

/-- Not the line-feed byte. -/
def isNotNewline (b : Nat) : Bool := b ≠ 10

/-- One iteration of the read loop on a non-empty chunk
    (`_server.py` lines 123-135).  `data.index(b"\n")` finds the first line
    feed of the new chunk only; on `ValueError` the chunk is appended to the
    buffer.  `data[:end_idx]` is the longest line-feed-free front of the
    chunk and `data[end_idx + 1:]` everything after that line feed.  The
    buffer (a Python list of chunks joined on packet formation) is modelled
    directly as the joined byte string.  Returns the packet handed to
    `_process` (if any) and the new buffer. -/
def readChunkStep (buffer data : List Nat) : Option (List Nat) × List Nat :=
  if 10 ∈ data then
    (some (buffer ++ data.takeWhile isNotNewline),
     (data.dropWhile isNotNewline).tail)
  else
    (none, buffer ++ data)

/-- The read loop over a sequence of read chunks: the packets handed to
    `_process`, in order, and the final buffer contents. -/
def readLoop (buffer : List Nat) : List (List Nat) → List (List Nat) × List Nat
  | [] => ([], buffer)
  | chunk :: rest =>
    match readChunkStep buffer chunk with
    | (none, b) => readLoop b rest
    | (some pkt, b) =>
      let r := readLoop b rest
      (pkt :: r.1, r.2)

/-- Specification-side packet framing: the maximal line-feed-separated split
    of the whole inbound byte stream -- the complete packets (byte runs
    terminated by a line feed) followed by the unterminated remainder. -/
def splitPackets : List Nat → List (List Nat) × List Nat
  | [] => ([], [])
  | b :: rest =>
    if b = 10 then
      let r := splitPackets rest
      ([] :: r.1, r.2)
    else
      let r := splitPackets rest
      match r.1 with
      | [] => ([], b :: r.2)
      | p :: ps => ((b :: p) :: ps, r.2)

/-! ## GUID parsing (CPython `uuid.UUID(hex=...)`) -/

/-- `str.replace('urn:', '')`: removes every occurrence, scanning left to
    right and continuing after each removal. -/
def removeUrn : List Char → List Char
  | 'u' :: 'r' :: 'n' :: ':' :: rest => removeUrn rest
  | c :: rest => c :: removeUrn rest
  | [] => []

/-- `str.replace('uuid:', '')`. -/
def removeUuid : List Char → List Char
  | 'u' :: 'u' :: 'i' :: 'd' :: ':' :: rest => removeUuid rest
  | c :: rest => c :: removeUuid rest
  | [] => []

/-- A curly brace, for `str.strip('{}')`. -/
def isBrace (c : Char) : Bool := c = '{' || c = '}'

/-- `str.strip('{}')`: braces removed from both ends. -/
def stripBraces (cs : List Char) : List Char :=
  ((cs.dropWhile isBrace).reverse.dropWhile isBrace).reverse

/-- ASCII whitespace accepted around Python `int` literals. -/
def isPyWhitespace (c : Char) : Bool :=
  c = ' ' || c = '\t' || c = '\n' || c = '\r' || c = '\x0b' || c = '\x0c'

/-- Hex digit value; `int(s, 16)` accepts both cases. -/
def hexDigitVal (c : Char) : Option Nat :=
  if '0' ≤ c ∧ c ≤ '9' then some (c.toNat - 48)
  else if 'a' ≤ c ∧ c ≤ 'f' then some (c.toNat - 87)
  else if 'A' ≤ c ∧ c ≤ 'F' then some (c.toNat - 55)
  else none

/-- Hex digits with single underscores allowed strictly between digits
    (Python numeric-literal rule); evaluates the digits. -/
def hexUnderscored : List Char → Nat → Option Nat
  | [], acc => some acc
  | '_' :: c :: rest, acc =>
    match hexDigitVal c with
    | some v => hexUnderscored rest (acc * 16 + v)
    | none => none
  | ['_'], _ => none
  | c :: rest, acc =>
    match hexDigitVal c with
    | some v => hexUnderscored rest (acc * 16 + v)
    | none => none

/-- Python `int(s, 16)`: optional surrounding whitespace, optional sign,
    optional `0x`/`0X` prefix (an underscore may follow the prefix), then
    hex digits with single embedded underscores. -/
def pyIntHex (s : List Char) : Option Int :=
  let t := ((s.dropWhile isPyWhitespace).reverse.dropWhile isPyWhitespace).reverse
  let signed : Int × List Char :=
    match t with
    | '+' :: r => (1, r)
    | '-' :: r => (-1, r)
    | r => (1, r)
  let body : Option (List Char) :=
    match signed.2 with
    | '0' :: 'x' :: r => if r = [] then none else some r
    | '0' :: 'X' :: r => if r = [] then none else some r
    | c :: r => if (hexDigitVal c).isSome then some (c :: r) else none
    | [] => none
  match body with
  | none => none
  | some b =>
    match hexUnderscored b 0 with
    | some v => some (signed.1 * v)
    | none => none

/-- CPython `uuid.UUID(hex=s)`: remove `urn:` and `uuid:`, strip braces,
    remove hyphens, require exactly 32 characters, evaluate with
    `int(hex, 16)`, and require a 128-bit non-negative value.  Returns the
    GUID's integer value, or `none` where the constructor raises
    `ValueError`. -/
def parseUUID (s : List Char) : Option Nat :=
  let h := (stripBraces (removeUuid (removeUrn s))).filter (fun c => c != '-')
  if h.length = 32 then
    match pyIntHex h with
    | some v => if 0 ≤ v ∧ v < 2 ^ 128 then some v.toNat else none
    | none => none
  else none

/-! ## Packet processing and the ack protocol (`OutOfProcTransport._process`) -/

/-- The parsed form of one inbound XML element, as produced by
    `ElementTree.fromstring`: top-level tag, the raw `PSGuid` and `Stream`
    attributes (absent attributes are `none`), and the text body. -/
structure Element where
  tag : String
  psGuidAttr : Option String
  streamAttr : Option String
  text : Option String
deriving DecidableEq

/-- Failures raised while processing one packet (`_process` and helpers). -/
inductive PacketError
  | missingPSGuid        -- `KeyError` from `element.attrib["PSGuid"]`
  | invalidGuid          -- `ValueError` from `uuid.UUID(...)`
  | unknownPipeline      -- `KeyError` from the pipeline table lookup
  | threadAlreadyStarted -- `RuntimeError` from starting a duplicate Command's thread
  | invalidBase64        -- `binascii.Error` from `base64.b64decode`
  | codecFailure         -- failure inside the psrpcore codec
deriving DecidableEq

/-- An ack packet written to the connection; the argument is the pipeline id
    (`none` addresses the runspace pool and is rendered as the zero GUID). -/
inductive Ack
  | closeAck (g : Option Nat)
  | commandAck (g : Option Nat)
  | dataAck (g : Option Nat)
  | signalAck (g : Option Nat)
deriving DecidableEq

/-- Behaviour of the external psrpcore codec during `_process_data`:
    whether `receive_data` succeeds and how many events `next_event`
    yields before returning `None`.  The codec is an external collaborator,
    so its behaviour is a parameter of the model. -/
structure CodecBehavior where
  recvOk : Bool
  eventCount : Nat
deriving DecidableEq

/-- Python-lenient base64 decoding used to model `base64.b64decode`
    (`validate=False`): characters outside the alphabet are discarded,
    `=` padding completes a quad of at least two characters and ends the
    scan, and a dangling partial quad at the end is an error. -/
def b64DecVal (c : Char) : Option Nat :=
  if 'A' ≤ c ∧ c ≤ 'Z' then some (c.toNat - 65)
  else if 'a' ≤ c ∧ c ≤ 'z' then some (c.toNat - 97 + 26)
  else if '0' ≤ c ∧ c ≤ '9' then some (c.toNat - 48 + 52)
  else if c = '+' then some 62
  else if c = '/' then some 63
  else none

/-- Decode a complete or padded quad of 6-bit values to bytes. -/
def b64QuadBytes : List Nat → List Nat
  | [a, b] => [a * 4 + b / 16]
  | [a, b, c] => [a * 4 + b / 16, b % 16 * 16 + c / 4]
  | [a, b, c, d] => [a * 4 + b / 16, b % 16 * 16 + c / 4, c % 4 * 64 + d]
  | _ => []

/-- The `binascii.a2b_base64` scan (non-strict mode): current quad of 6-bit
    values, count of padding characters seen for the quad, accumulated
    output. -/
def a2bBase64 : List Char → List Nat → Nat → List Nat → Option (List Nat)
  | [], quad, _, acc => if quad = [] then some acc else none
  | c :: rest, quad, pads, acc =>
    if c = '=' then
      if 2 ≤ quad.length then
        if 4 ≤ quad.length + pads + 1 then some (acc ++ b64QuadBytes quad)
        else a2bBase64 rest quad (pads + 1) acc
      else a2bBase64 rest quad pads acc
    else
      match b64DecVal c with
      | none => a2bBase64 rest quad pads acc
      | some v =>
        if quad.length = 3 then a2bBase64 rest [] 0 (acc ++ b64QuadBytes (quad ++ [v]))
        else a2bBase64 rest (quad ++ [v]) pads acc

/-- `base64.b64decode(s)` with default (lenient) validation. -/
def pyB64Decode (s : String) : Option (List Nat) := a2bBase64 s.toList [] 0 []

/-- `_process_close`: pop the pipeline (a `KeyError` if absent), close and
    join it (or close and join the runspace thread for the zero GUID), then
    `close_ack`.  Only the acks are returned here; the action sequence of a
    pipeline close is modelled separately for the temporal claim. -/
def processCloseAcks (pipelines : List Nat) (g : Option Nat) :
    Except PacketError (List Ack) :=
  match g with
  | some gid =>
    if gid ∈ pipelines then .ok [Ack.closeAck (some gid)] else .error .unknownPipeline
  | none => .ok [Ack.closeAck none]

/-- `_process_command`: only a pipeline-scoped Command does anything: the
    pipeline thread is created (`setdefault`) and started; starting an
    existing thread a second time raises `RuntimeError` before the ack. -/
def processCommandAcks (pipelines : List Nat) (g : Option Nat) :
    Except PacketError (List Ack) :=
  match g with
  | some gid =>
    if gid ∈ pipelines then .error .threadAlreadyStarted
    else .ok [Ack.commandAck (some gid)]
  | none => .ok []

/-- `_process_data`: base64-decode the body (empty when the text is missing
    or empty), `receive_data`, drain `next_event()` into the target worker's
    queue (a `KeyError` if a pipeline-scoped event targets an unknown
    pipeline), then `data_ack`. -/
def processDataAcks (pipelines : List Nat) (codec : CodecBehavior)
    (text : Option String) (g : Option Nat) : Except PacketError (List Ack) :=
  let decoded : Option (List Nat) :=
    match text with
    | some t => if t = "" then some [] else pyB64Decode t
    | none => some []
  match decoded with
  | none => .error .invalidBase64
  | some _ =>
    if codec.recvOk then
      match g with
      | some gid =>
        if gid ∈ pipelines ∨ codec.eventCount = 0 then .ok [Ack.dataAck (some gid)]
        else .error .unknownPipeline
      | none => .ok [Ack.dataAck none]
    else .error .codecFailure

/-- `_process_signal`: only a pipeline-scoped Signal does anything: look up
    the pipeline (`KeyError` if absent), `stop()` it, then `signal_ack`.
    A runspace-scoped Signal is ignored entirely. -/
def processSignalAcks (pipelines : List Nat) (g : Option Nat) :
    Except PacketError (List Ack) :=
  match g with
  | some gid =>
    if gid ∈ pipelines then .ok [Ack.signalAck (some gid)] else .error .unknownPipeline
  | none => .ok []

/-- `OutOfProcTransport._process`: read the mandatory `PSGuid` attribute,
    parse it (the zero GUID becomes `None`), and dispatch on the tag.
    A tag outside {Close, Command, Data, Signal} falls through the
    `if`/`elif` chain and is silently ignored.  Returns the acks written. -/
def process (pipelines : List Nat) (codec : CodecBehavior) (el : Element) :
    Except PacketError (List Ack) :=
  match el.psGuidAttr with
  | none => .error .missingPSGuid
  | some s =>
    match parseUUID s.toList with
    | none => .error .invalidGuid
    | some gv =>
      let psGuid : Option Nat := if gv = 0 then none else some gv
      if el.tag = "Close" then processCloseAcks pipelines psGuid
      else if el.tag = "Command" then processCommandAcks pipelines psGuid
      else if el.tag = "Data" then processDataAcks pipelines codec el.text psGuid
      else if el.tag = "Signal" then processSignalAcks pipelines psGuid
      else .ok []

deriving instance DecidableEq for Except

/-! ## Read-loop error policy (`OutOfProcTransport.run`, lines 128-168) -/

/-- `psrpcore.types.RunspacePoolState`. -/
inductive RunspacePoolState
  | BeforeOpen | Opening | Opened | Closed | Closing | Broken
  | NegotiationSent | NegotiationSucceeded | Connecting | Disconnected
deriving DecidableEq

/-- `psrpcore.types.ErrorCategory` (the members this program uses). -/
inductive ErrorCategory
  | NotSpecified
  | ParserError
  | ReadError
deriving DecidableEq

/-- The fields of a `psrpcore.types.ErrorRecord` relevant to this program:
    exception message, category info and fully-qualified error id. -/
structure ErrorRecordModel where
  message : String
  category : ErrorCategory
  activity : Option String
  reason : Option String
  targetName : Option String
  targetType : Option String
  fullyQualifiedErrorId : String
deriving DecidableEq

/-- The ErrorRecord constructed by the read loop's exception handler
    (lines 142-155): `msg` is `str(e)` and `rpid` the runspace pool id. -/
def readLoopErrorRecord (msg rpid : String) : ErrorRecordModel :=
  { message := msg
    category := .ReadError
    activity := some "Parsing PSRP msg"
    reason := some "Unknown result"
    targetName := some ("RunspacePool(" ++ rpid ++ ")")
    targetType := some "RunspaceThread"
    fullyQualifiedErrorId := "ProcessRunspaceMessageFailure" }

/-- Outcome of the read loop's exception handler: either the pool is marked
    broken with the record, pending codec bytes (if any) are flushed and the
    loop exits via `break`, or the exception propagates (`raise`). -/
inductive ReadLoopErrOutcome
  | brokenFlushExit (record : ErrorRecordModel) (flushed : Option (List Nat))
  | propagate
deriving DecidableEq

/-- The handler around `_process` (lines 139-168): build the ErrorRecord;
    if the pool state is Opened or Broken, `set_broken(err)`, flush
    `data_to_send()` if non-empty, and exit the loop; otherwise re-raise.
    `pending` is the codec's `data_to_send()` result after `set_broken`. -/
def handleReadLoopError (st : RunspacePoolState) (msg rpid : String)
    (pending : Option (List Nat)) : ReadLoopErrOutcome :=
  if st = .Opened ∨ st = .Broken then
    .brokenFlushExit (readLoopErrorRecord msg rpid) pending
  else
    .propagate

/-! ## Pipeline close sequence (`_process_close`, `PipelineThread.close`) -/

/-- `psrpcore.types.PSInvocationState`. -/
inductive PSInvocationState
  | NotStarted | Running | Stopping | Stopped | Completed | Failed | Disconnected
deriving DecidableEq

/-- Observable actions during a pipeline `<Close>` (`_process_close`,
    lines 230-243, with `PipelineThread.close`, lines 521-527). -/
inductive CloseStep
  | popPipeline (g : Nat)     -- `self.pipelines.pop(pipeline_id)`
  | beginStop                 -- `self.pipeline.begin_stop()`
  | codecClose                -- `self.pipeline.close()`
  | drainDiscarded            -- `_ = self.runspace.data_to_send()` (result thrown away)
  | enqueueSentinel           -- `self.event_queue.put(None)`
  | joinThread                -- `pipeline.join()`
  | drainSent                 -- bytes from `data_to_send()` handed to `transport.data` (never happens here)
  | writeCloseAck (g : Option Nat)  -- `self.close_ack(pipeline_id)`
deriving DecidableEq

/-- `PipelineThread.close()`: `begin_stop()` when Running, codec `close()`,
    then `_ = self.runspace.data_to_send()` -- the pending outbound bytes
    are drained from the codec but **discarded**, not handed to the
    transport -- then the sentinel is enqueued. -/
def pipelineCloseSteps (st : PSInvocationState) : List CloseStep :=
  (if st = .Running then [CloseStep.beginStop] else [])
    ++ [CloseStep.codecClose, CloseStep.drainDiscarded, CloseStep.enqueueSentinel]

/-- `_process_close` for a pipeline-scoped GUID: pop the table entry, run
    `close()`, join the worker thread, then send `CloseAck`. -/
def processCloseSteps (st : PSInvocationState) (g : Nat) : List CloseStep :=
  CloseStep.popPipeline g
    :: pipelineCloseSteps st ++ [CloseStep.joinThread, CloseStep.writeCloseAck (some g)]

/-! ## Host-call rendezvous (`PSHost._send_data_with_response`) -/

/-- A host-call response value stored in the result map: `event.error` when
    present, else `event.result`. -/
inductive PSVal
  | errorRecord (msg : String)
  | value (n : Nat)
deriving DecidableEq

/-- How `_send_data_with_response` returns to the script. -/
inductive HostCallOutcome
  | ret (v : PSVal)                   -- `return result`
  | raiseHostCallFailed (msg : String) -- `raise Exception("Received error from host call: ...")`
  | exitScript                        -- `sys.exit()` (cooperative termination)
deriving DecidableEq

/-- `dict.pop(call_id)` on a unique-key association list. -/
def removeKey (m : List (Nat × PSVal)) (k : Nat) : List (Nat × PSVal) :=
  m.filter (fun p => p.1 ≠ k)

/-- The `wait_for` predicate (lines 685-689): the call id is present in the
    result map, or the owning pipeline's state has left Running. -/
def hostWakeCondition (callId : Nat) (results : List (Nat × PSVal))
    (st : PSInvocationState) : Prop :=
  (results.lookup callId).isSome ∨ st ≠ PSInvocationState.Running

instance (callId : Nat) (results : List (Nat × PSVal)) (st : PSInvocationState) :
    Decidable (hostWakeCondition callId results st) := by
  unfold hostWakeCondition
  infer_instance

/-- The post-wake behaviour of `_send_data_with_response` (lines 692-703):
    if the call id is present, pop it; raise when the stored value is an
    ErrorRecord, else return it; when absent, `sys.exit()`.  Returns the
    outcome and the result map afterwards. -/
def sendDataWithResponse (callId : Nat) (results : List (Nat × PSVal)) :
    HostCallOutcome × List (Nat × PSVal) :=
  match results.lookup callId with
  | some (PSVal.errorRecord m) =>
    (HostCallOutcome.raiseHostCallFailed ("Received error from host call: " ++ m),
     removeKey results callId)
  | some (PSVal.value n) => (HostCallOutcome.ret (PSVal.value n), removeKey results callId)
  | none => (HostCallOutcome.exitScript, results)

/-! ## Script executor error policy (`PipelineThread._exec`, lines 442-519) -/

/-- How the dynamic execution of the user script ends. -/
inductive ExecOutcome
  | success
  | syntaxError (msg : String)   -- `SyntaxError`
  | cooperativeStop              -- `SystemExit` (the cooperative-termination signal)
  | otherError (msg : String)    -- any other `Exception`
deriving DecidableEq

/-- Observable pipeline actions taken by `_exec` after `exec(code, ...)`. -/
inductive ExecAction
  | complete                                   -- `self.pipeline.complete()`
  | changeStateFailed (e : ErrorRecordModel)   -- `_change_state(Failed, err, emit=True)`
  | stop                                       -- `self.pipeline.stop()`
  | writeErrorRecord (category : ErrorCategory) (reason : Option String) (fqeid : String)
  | sendData                                   -- `self._send_data()`
deriving DecidableEq

/-- The ErrorRecord built for a script syntax failure (lines 483-495). -/
def syntaxErrorRecord (msg : String) : ErrorRecordModel :=
  { message := msg
    category := .ParserError
    activity := none
    reason := some "InvalidPythonSyntax"
    targetName := none
    targetType := none
    fullyQualifiedErrorId := "InvalidPythonSyntax" }

/-- The actions `_exec` performs for each execution outcome
    (lines 475-516): success completes; a syntax error fails the pipeline;
    `SystemExit` stops it; any other exception is written as a pipeline
    error record and the pipeline is completed.  In every case the worker
    then drains `_send_data()` once. -/
def execActions (r : ExecOutcome) : List ExecAction :=
  (match r with
   | .success => [ExecAction.complete]
   | .syntaxError msg => [ExecAction.changeStateFailed (syntaxErrorRecord msg)]
   | .cooperativeStop => [ExecAction.stop]
   | .otherError _ =>
     [ExecAction.writeErrorRecord .NotSpecified (some "UncaughtPythonException")
        "UncaughtPythonException",
      ExecAction.complete])
    ++ [ExecAction.sendData]

/-! ## Parameter extraction (`PipelineThread._exec`, lines 452-458) -/

/-- The accumulating loop over `raw_parameters`: **every** pair's value is
    appended to `arguments`, and a pair with a name additionally updates the
    `parameters` dict. -/
def extractParamsGo {α : Type} (args : List α) (params : String → Option α) :
    List (Option String × α) → List α × (String → Option α)
  | [] => (args, params)
  | (name?, v) :: rest =>
    extractParamsGo (args ++ [v])
      (match name? with
       | some n => fun m => if m = n then some v else params m
       | none => params)
      rest

/-- Positional `args` and named-parameter map handed to the Cmdlet facade. -/
def extractParams {α : Type} (raw : List (Option String × α)) :
    List α × (String → Option α) :=
  extractParamsGo [] (fun _ => none) raw

/-- Specification-side: the value of the last pair named `m`, if any. -/
def lastNamed {α : Type} : List (Option String × α) → String → Option α
  | [], _ => none
  | (name?, v) :: rest, m =>
    match lastNamed rest m with
    | some w => some w
    | none =>
      match name? with
      | some n => if m = n then some v else none
      | none => none

/-- Specification-side: the values of the unnamed pairs only (what the
    claim says the positional arguments are). -/
def unnamedValues {α : Type} (raw : List (Option String × α)) : List α :=
  raw.filterMap (fun p => match p.1 with | none => some p.2 | some _ => none)

/-! ## Pipe-name derivation (`get_pipe_name`, POSIX branch) -/

/-- `struct.pack(">Q", n)`: the 8 big-endian bytes of a 64-bit value.
    (`struct.error` is raised for values outside 64 bits; theorems carry
    that bound as a hypothesis.) -/
def structPackQ (n : Nat) : List Nat :=
  (List.range 8).map (fun i => n / 2 ^ (8 * (7 - i)) % 256)

/-- `base64.b16encode(bs).decode()`: two uppercase hex digits per byte. -/
def b16encodeUpper (bs : List Nat) : List Char :=
  bs.flatMap (fun b => [hexCharUpper (b / 16), hexCharUpper (b % 16)])

/-- `os.path.join(a, b)` for an absolute `a` and a relative `b`: a slash is
    inserted unless `a` already ends with one. -/
def joinPath (a b : String) : String :=
  if a.toList.getLast? = some '/' then a ++ b else a ++ "/" ++ b

/-- The FILETIME of a process create time given as microseconds since the
    Unix epoch (UTC): `116444736000000000 + usecs * 10` (lines 717-726). -/
def fileTimeOfUsecs (usecs : Nat) : Nat := 116444736000000000 + usecs * 10

/-- `get_pipe_name()` on POSIX (lines 733-742): render the FILETIME as 16
    uppercase hex digits, strip leading zeros (`lstrip("0")`), take the
    slice `[1:9]`, and build
    `{TMPDIR|/tmp}/CoreFxPipe_PSHost.{start_time}.{pid}.None.{name}`. -/
def getPipeNamePosix (tmpdir : Option String) (pid usecs : Nat)
    (processName : String) : String :=
  let startTime := String.mk
    ((((b16encodeUpper (structPackQ (fileTimeOfUsecs usecs))).dropWhile
        (fun c => c = '0')).drop 1).take 8)
  joinPath (tmpdir.getD "/tmp")
    ("CoreFxPipe_PSHost." ++ startTime ++ "." ++ toString pid ++ ".None." ++ processName)

/-! ## Theorems -/

namespace Lemmas

theorem hexChar_mem_table (n : Nat) : hexChar n ∈ hexLowerChars := by
  unfold hexChar
  rcases Nat.lt_or_ge n hexLowerChars.length with h | h
  · have hall : ∀ m, m < hexLowerChars.length → hexLowerChars.getD m '0' ∈ hexLowerChars := by
      decide
    exact hall n h
  · rw [List.getD_eq_default _ _ h]
    decide

theorem hexCharUpper_mem_table (n : Nat) : hexCharUpper n ∈ hexUpperChars := by
  unfold hexCharUpper
  rcases Nat.lt_or_ge n hexUpperChars.length with h | h
  · have hall : ∀ m, m < hexUpperChars.length → hexUpperChars.getD m '0' ∈ hexUpperChars := by
      decide
    exact hall n h
  · rw [List.getD_eq_default _ _ h]
    decide

theorem b64Char_mem_table (n : Nat) : b64Char n ∈ b64alphabet := by
  unfold b64Char
  rcases Nat.lt_or_ge n b64alphabet.length with h | h
  · have hall : ∀ m, m < b64alphabet.length → b64alphabet.getD m 'A' ∈ b64alphabet := by
      decide
    exact hall n h
  · rw [List.getD_eq_default _ _ h]
    decide

theorem b64Char_ne_newline (n : Nat) : b64Char n ≠ '\n' := by
  intro h
  have := b64Char_mem_table n
  rw [h] at this
  exact absurd this (by decide)

theorem newline_not_mem_b64encode (bs : List Nat) : '\n' ∉ b64encode bs := by
  have H : ∀ (n : Nat) (l : List Nat), l.length ≤ n → '\n' ∉ b64encode l := by
    intro n
    induction n with
    | zero =>
      intro l hl
      have : l = [] := List.length_eq_zero.mp (Nat.le_zero.mp hl)
      subst this
      simp [b64encode]
    | succ n ih =>
      intro l hl
      match l with
      | [] => simp [b64encode]
      | [a] =>
        intro hmem
        simp only [b64encode, List.mem_cons, List.not_mem_nil, or_false] at hmem
        rcases hmem with h | h | h | h
        · exact b64Char_ne_newline _ h.symm
        · exact b64Char_ne_newline _ h.symm
        · exact absurd h (by decide)
        · exact absurd h (by decide)
      | [a, b] =>
        intro hmem
        simp only [b64encode, List.mem_cons, List.not_mem_nil, or_false] at hmem
        rcases hmem with h | h | h | h
        · exact b64Char_ne_newline _ h.symm
        · exact b64Char_ne_newline _ h.symm
        · exact b64Char_ne_newline _ h.symm
        · exact absurd h (by decide)
      | a :: b :: c :: rest =>
        intro hmem
        simp only [b64encode, List.mem_cons] at hmem
        rcases hmem with h | h | h | h | h
        · exact b64Char_ne_newline _ h.symm
        · exact b64Char_ne_newline _ h.symm
        · exact b64Char_ne_newline _ h.symm
        · exact b64Char_ne_newline _ h.symm
        · exact ih rest (by simp at hl; omega) h
  exact H bs.length bs le_rfl

theorem mem_hexN (len n : Nat) {c : Char} (h : c ∈ hexN len n) : c ∈ hexLowerChars := by
  unfold hexN at h
  obtain ⟨i, _, rfl⟩ := List.mem_map.mp h
  exact hexChar_mem_table _

theorem length_hexN (len n : Nat) : (hexN len n).length = len := by
  unfold hexN
  rw [List.length_map, List.length_range]

/-- The canonical 8-4-4-4-12 decomposition of `uuidStr`. -/
theorem uuidStr_canonical (g : Nat) :
    ∃ q1 q2 q3 q4 q5 : List Char,
      uuidStr g = q1 ++ '-' :: q2 ++ '-' :: q3 ++ '-' :: q4 ++ '-' :: q5
      ∧ q1.length = 8 ∧ q2.length = 4 ∧ q3.length = 4 ∧ q4.length = 4 ∧ q5.length = 12
      ∧ ∀ c, c ∈ q1 ++ q2 ++ q3 ++ q4 ++ q5 → c ∈ hexLowerChars := by
  unfold uuidStr
  set h := hexN 32 (g % 2 ^ 128) with hh
  have hlen : h.length = 32 := length_hexN _ _
  refine ⟨h.take 8, (h.drop 8).take 4, (h.drop 12).take 4, (h.drop 16).take 4, h.drop 20,
    rfl, ?_, ?_, ?_, ?_, ?_, ?_⟩
  · simp [List.length_take, hlen]
  · simp [List.length_take, List.length_drop, hlen]
  · simp [List.length_take, List.length_drop, hlen]
  · simp [List.length_take, List.length_drop, hlen]
  · simp [List.length_drop, hlen]
  · intro c hc
    simp only [List.mem_append] at hc
    rcases hc with (((hc | hc) | hc) | hc) | hc
    · exact mem_hexN _ _ (List.mem_of_mem_take hc)
    · exact mem_hexN _ _ (List.mem_of_mem_drop (List.mem_of_mem_take hc))
    · exact mem_hexN _ _ (List.mem_of_mem_drop (List.mem_of_mem_take hc))
    · exact mem_hexN _ _ (List.mem_of_mem_drop (List.mem_of_mem_take hc))
    · exact mem_hexN _ _ (List.mem_of_mem_drop hc)

theorem newline_not_mem_uuidStr (g : Nat) : '\n' ∉ uuidStr g := by
  obtain ⟨q1, q2, q3, q4, q5, heq, _, _, _, _, _, hmem⟩ := uuidStr_canonical g
  rw [heq]
  intro hc
  simp only [List.mem_append, List.mem_cons] at hc
  have hx : '\n' ∈ q1 ++ q2 ++ q3 ++ q4 ++ q5 ∨ '\n' = '-' := by
    simp only [List.mem_append]
    tauto
  rcases hx with hx | hx
  · have := hmem _ hx
    exact absurd this (by decide)
  · exact absurd hx (by decide)

theorem count_newline_b64encode (bs : List Nat) : (b64encode bs).count '\n' = 0 :=
  List.count_eq_zero.mpr (newline_not_mem_b64encode bs)

theorem count_newline_uuidStr (g : Nat) : (uuidStr g).count '\n' = 0 :=
  List.count_eq_zero.mpr (newline_not_mem_uuidStr g)

theorem splitPackets_of_no_newline {l : List Nat} (h : 10 ∉ l) :
    splitPackets l = ([], l) := by
  induction l with
  | nil => rfl
  | cons b rest ih =>
    have hb : b ≠ 10 := fun hb => h (hb ▸ List.mem_cons_self b rest)
    have hr : 10 ∉ rest := fun hr => h (List.mem_cons_of_mem b hr)
    simp only [splitPackets, if_neg hb, ih hr]

theorem splitPackets_append_newline {a : List Nat} (b : List Nat) (ha : 10 ∉ a) :
    splitPackets (a ++ 10 :: b) = (a :: (splitPackets b).1, (splitPackets b).2) := by
  induction a with
  | nil => simp [splitPackets]
  | cons x a ih =>
    have hx : x ≠ 10 := fun hx => ha (hx ▸ List.mem_cons_self x a)
    have ha' : 10 ∉ a := fun h => ha (List.mem_cons_of_mem x h)
    simp only [List.cons_append, splitPackets, if_neg hx, List.append_eq, ih ha']

theorem dropWhile_notNewline_eq {l : List Nat} (h : 10 ∈ l) :
    l.dropWhile isNotNewline = 10 :: (l.dropWhile isNotNewline).tail := by
  induction l with
  | nil => cases h
  | cons x rest ih =>
    by_cases hx : x = 10
    · subst hx
      simp [List.dropWhile_cons, isNotNewline]
    · have hr : 10 ∈ rest := by
        rcases List.mem_cons.mp h with h' | h'
        · exact absurd h'.symm hx
        · exact h'
      simpa [List.dropWhile_cons, isNotNewline, hx] using ih hr

theorem newline_not_mem_takeWhile (l : List Nat) :
    10 ∉ l.takeWhile isNotNewline := by
  intro h
  have := List.mem_takeWhile_imp h
  simp [isNotNewline] at this

/-- A byte string containing a line feed splits as line-feed-free front,
    the first line feed, and the remainder. -/
theorem takeWhile_newline_decomposition {l : List Nat} (h : 10 ∈ l) :
    l = l.takeWhile isNotNewline ++ 10 :: (l.dropWhile isNotNewline).tail := by
  conv_lhs => rw [← List.takeWhile_append_dropWhile isNotNewline l]
  rw [← dropWhile_notNewline_eq h]

theorem newline_not_mem_rest {l : List Nat} (h : 10 ∈ l) (hc : l.count 10 ≤ 1) :
    10 ∉ (l.dropWhile isNotNewline).tail := by
  have hdec := takeWhile_newline_decomposition h
  have hcnt : l.count 10 =
      (l.takeWhile isNotNewline).count 10
        + (10 :: (l.dropWhile isNotNewline).tail).count 10 := by
    conv_lhs => rw [hdec]
    exact List.count_append _ _ _
  rw [List.count_cons_self,
    List.count_eq_zero.mpr (newline_not_mem_takeWhile l)] at hcnt
  have : ((l.dropWhile isNotNewline).tail).count 10 = 0 := by omega
  exact List.count_eq_zero.mp this

/-- The read loop agrees with the maximal line-feed split of the full
    stream, provided the buffer is line-feed free and every chunk carries at
    most one line feed. -/
theorem readLoop_eq_splitPackets (chunks : List (List Nat)) :
    ∀ buffer, 10 ∉ buffer → (∀ c ∈ chunks, c.count 10 ≤ 1) →
      readLoop buffer chunks = splitPackets (buffer ++ chunks.flatten) := by
  induction chunks with
  | nil =>
    intro buffer hb _
    simp [readLoop, splitPackets_of_no_newline hb]
  | cons c rest ih =>
    intro buffer hb hc
    have hc' : ∀ x ∈ rest, x.count 10 ≤ 1 := fun x hx => hc x (List.mem_cons_of_mem c hx)
    by_cases hmem : 10 ∈ c
    · set t := c.takeWhile isNotNewline with ht
      set d := (c.dropWhile isNotNewline).tail with hd2
      have hdec : c = t ++ 10 :: d := takeWhile_newline_decomposition hmem
      have hstep : readChunkStep buffer c = (some (buffer ++ t), d) := by
        simp [readChunkStep, hmem, ht, hd2]
      have hd : 10 ∉ d := newline_not_mem_rest hmem (hc c (List.mem_cons_self c rest))
      have hbt : 10 ∉ buffer ++ t := by
        intro hx
        rcases List.mem_append.mp hx with hx | hx
        · exact hb hx
        · exact newline_not_mem_takeWhile c (ht ▸ hx)
      have hih := ih d hd hc'
      simp only [readLoop, hstep, hih]
      rw [show buffer ++ (c :: rest).flatten = (buffer ++ t) ++ 10 :: (d ++ rest.flatten) by
            rw [List.flatten_cons]
            conv_lhs => rw [hdec]
            simp [List.append_assoc]]
      rw [splitPackets_append_newline _ hbt]
    · have hstep : readChunkStep buffer c = (none, buffer ++ c) := by
        simp [readChunkStep, hmem]
      have hbc : 10 ∉ buffer ++ c := by
        intro hx
        rcases List.mem_append.mp hx with hx | hx
        · exact hb hx
        · exact hmem hx
      simp only [readLoop, hstep, ih (buffer ++ c) hbc hc', List.flatten_cons,
        List.append_assoc]

theorem processCloseAcks_ok {P : List Nat} {g : Option Nat} {acks : List Ack}
    (h : processCloseAcks P g = .ok acks) : acks = [Ack.closeAck g] := by
  cases g with
  | none =>
    simp only [processCloseAcks, Except.ok.injEq] at h
    exact h.symm
  | some gid =>
    simp only [processCloseAcks] at h
    split at h
    · simp only [Except.ok.injEq] at h
      exact h.symm
    · simp at h

theorem processCommandAcks_ok_some {P : List Nat} {gid : Nat} {acks : List Ack}
    (h : processCommandAcks P (some gid) = .ok acks) :
    acks = [Ack.commandAck (some gid)] := by
  simp only [processCommandAcks] at h
  split at h
  · simp at h
  · simp only [Except.ok.injEq] at h
    exact h.symm

theorem processCommandAcks_ok_none {P : List Nat} {acks : List Ack}
    (h : processCommandAcks P none = .ok acks) : acks = [] := by
  simp only [processCommandAcks, Except.ok.injEq] at h
  exact h.symm

theorem processDataAcks_ok {P : List Nat} {codec : CodecBehavior}
    {text : Option String} {g : Option Nat} {acks : List Ack}
    (h : processDataAcks P codec text g = .ok acks) : acks = [Ack.dataAck g] := by
  cases g with
  | none =>
    simp only [processDataAcks] at h
    split at h
    · simp at h
    · split at h
      · simp only [Except.ok.injEq] at h
        exact h.symm
      · simp at h
  | some gid =>
    simp only [processDataAcks] at h
    split at h
    · simp at h
    · split at h
      · split at h
        · simp only [Except.ok.injEq] at h
          exact h.symm
        · simp at h
      · simp at h

theorem processSignalAcks_ok_some {P : List Nat} {gid : Nat} {acks : List Ack}
    (h : processSignalAcks P (some gid) = .ok acks) :
    acks = [Ack.signalAck (some gid)] := by
  simp only [processSignalAcks] at h
  split at h
  · simp only [Except.ok.injEq] at h
    exact h.symm
  · simp at h

theorem processSignalAcks_ok_none {P : List Nat} {acks : List Ack}
    (h : processSignalAcks P none = .ok acks) : acks = [] := by
  simp only [processSignalAcks, Except.ok.injEq] at h
  exact h.symm

theorem process_ignored_tag {pipelines : List Nat} {codec : CodecBehavior}
    {el : Element} {s : String} {gv : Nat}
    (hattr : el.psGuidAttr = some s) (hparse : parseUUID s.toList = some gv)
    (h1 : el.tag ≠ "Close") (h2 : el.tag ≠ "Command") (h3 : el.tag ≠ "Data")
    (h4 : el.tag ≠ "Signal") : process pipelines codec el = .ok [] := by
  have hparse' : parseUUID s.data = some gv := hparse
  simp [process, hattr, hparse', h1, h2, h3, h4]

theorem extractParamsGo_spec {α : Type} (raw : List (Option String × α)) :
    ∀ (args : List α) (params : String → Option α),
      extractParamsGo args params raw =
        (args ++ raw.map Prod.snd,
         fun m => match lastNamed raw m with | some w => some w | none => params m) := by
  induction raw with
  | nil =>
    intro args params
    simp [extractParamsGo, lastNamed]
  | cons p rest ih =>
    intro args params
    obtain ⟨name?, v⟩ := p
    simp only [extractParamsGo]
    rw [ih]
    congr 1
    · simp
    · funext m
      cases name? with
      | none =>
        simp only [lastNamed]
        cases hl : lastNamed rest m <;> simp [hl]
      | some n =>
        simp only [lastNamed]
        cases hl : lastNamed rest m with
        | some w => simp [hl]
        | none =>
          simp only [hl]
          by_cases hmn : m = n <;> simp [hmn]

theorem b16_structPack_eq_hexN (n : Nat) :
    b16encodeUpper (structPackQ n) = hexNUpper 16 n := by
  have aux1 : ∀ k, n / 2 ^ k % 256 % 16 = n / 2 ^ k % 16 := fun k =>
    Nat.mod_mod_of_dvd _ (by norm_num)
  have aux2 : ∀ k, n / 2 ^ k % 256 / 16 = n / 2 ^ (k + 4) % 16 := by
    intro k
    have h1 : (256 : Nat) = 16 * 16 := by norm_num
    rw [h1, Nat.mod_mul_right_div_self, Nat.div_div_eq_div_mul]
    congr 1
    rw [pow_add]
    norm_num
  have hr8 : List.range 8 = [0, 1, 2, 3, 4, 5, 6, 7] := rfl
  have hr16 : List.range 16 = [0, 1, 2, 3, 4, 5, 6, 7, 8, 9, 10, 11, 12, 13, 14, 15] := rfl
  simp only [structPackQ, b16encodeUpper, hexNUpper, hr8, hr16, List.map_cons,
    List.map_nil, List.flatMap_cons, List.flatMap_nil, List.append_nil,
    List.cons_append, List.nil_append]
  simp only [aux1, aux2]
  norm_num

end Lemmas

/-- C1 counterexample: a well-formed runspace-scoped (zero-GUID) `<Signal>`
    packet is processed successfully but no `SignalAck` is emitted (the
    returned ack list is empty), contradicting the claim that it receives
    exactly one `SignalAck`. -/
theorem runspace_signal_no_ack_counterexample :
    process [] ⟨true, 0⟩
        ⟨"Signal", some "00000000-0000-0000-0000-000000000000", none, none⟩ = .ok []
    ∧ (Except.ok ([] : List Ack) : Except PacketError (List Ack))
        ≠ .ok [Ack.signalAck none] := by
  set_option maxRecDepth 10000 in decide

/-- C1 (amended): for every well-formed inbound packet whose processing
    completes without raising, the acks written are: exactly one `CloseAck`
    with the packet's PSGuid for a Close, exactly one `DataAck` with the
    packet's PSGuid for a Data, exactly one `CommandAck` for a
    pipeline-scoped (non-zero-GUID) Command and none for a runspace-scoped
    one, exactly one `SignalAck` for a pipeline-scoped Signal and **none**
    for a runspace-scoped Signal, and no ack for any other tag. -/
theorem process_ack_protocol (pipelines : List Nat) (codec : CodecBehavior)
    (el : Element) (acks : List Ack) (s : String) (gv : Nat)
    (hattr : el.psGuidAttr = some s) (hparse : parseUUID s.toList = some gv)
    (hok : process pipelines codec el = .ok acks) :
    (el.tag = "Close" → acks = [Ack.closeAck (if gv = 0 then none else some gv)])
    ∧ (el.tag = "Command" → acks = if gv = 0 then [] else [Ack.commandAck (some gv)])
    ∧ (el.tag = "Data" → acks = [Ack.dataAck (if gv = 0 then none else some gv)])
    ∧ (el.tag = "Signal" → acks = if gv = 0 then [] else [Ack.signalAck (some gv)])
    ∧ (el.tag ∉ ["Close", "Command", "Data", "Signal"] → acks = []) := by
  simp only [process, hattr, hparse] at hok
  refine ⟨?_, ?_, ?_, ?_, ?_⟩
  · intro htag
    simp [htag] at hok
    exact Lemmas.processCloseAcks_ok hok
  · intro htag
    simp [htag] at hok
    by_cases hg : gv = 0
    · simp [hg] at hok ⊢
      exact Lemmas.processCommandAcks_ok_none hok
    · simp [hg] at hok ⊢
      exact Lemmas.processCommandAcks_ok_some hok
  · intro htag
    simp [htag] at hok
    exact Lemmas.processDataAcks_ok hok
  · intro htag
    simp [htag] at hok
    by_cases hg : gv = 0
    · simp [hg] at hok ⊢
      exact Lemmas.processSignalAcks_ok_none hok
    · simp [hg] at hok ⊢
      exact Lemmas.processSignalAcks_ok_some hok
  · intro htag
    simp only [List.mem_cons, List.not_mem_nil, or_false, not_or] at htag
    obtain ⟨h1, h2, h3, h4⟩ := htag
    simp only [h1, h2, h3, h4, if_false, Except.ok.injEq] at hok
    exact hok.symm

/-- Witness for `process_ack_protocol`: a pipeline-scoped Signal for a live
    pipeline yields exactly one `SignalAck` carrying its GUID. -/
theorem process_ack_protocol_witness :
    process [5] ⟨true, 1⟩
        ⟨"Signal", some "00000000-0000-0000-0000-000000000005", none, none⟩
      = .ok [Ack.signalAck (some 5)]
    ∧ ([Ack.signalAck (some 5)]
        = if (5 : Nat) = 0 then ([] : List Ack) else [Ack.signalAck (some 5)]) :=
  ⟨by set_option maxRecDepth 10000 in decide,
   (process_ack_protocol [5] ⟨true, 1⟩
      ⟨"Signal", some "00000000-0000-0000-0000-000000000005", none, none⟩
      [Ack.signalAck (some 5)] "00000000-0000-0000-0000-000000000005" 5 rfl
      (by set_option maxRecDepth 10000 in decide)
      (by set_option maxRecDepth 10000 in decide)).2.2.2.1 rfl⟩

/-- C5 counterexample: a well-formed XML element with the unknown top-level
    tag `Foo` and a valid zero PSGuid is **accepted** (processed without any
    error, emitting no ack), contradicting the claim that an unknown tag is
    rejected with `MalformedPacket`. -/
theorem unknown_tag_accepted_counterexample :
    process [] ⟨true, 0⟩
      ⟨"Foo", some "00000000-0000-0000-0000-000000000000", none, none⟩ = .ok [] := by
  set_option maxRecDepth 10000 in decide

/-- C5 (amended): processing an inbound packet fails when the `PSGuid`
    attribute is missing (`KeyError`) or its value is not a valid GUID
    (`ValueError`); a Data packet's body fails with `binascii.Error` exactly
    when Python's lenient `base64.b64decode` rejects it -- a dangling quad
    such as `"QQ"` -- while a body made of non-alphabet characters such as
    `"!"` is accepted with the invalid characters discarded, so not every
    invalid-base64 body is rejected; and a well-formed element whose
    top-level tag is outside {Close, Command, Data, Signal} -- in particular
    any tag outside the eight-tag set, but also the four ack tags
    CommandAck, DataAck, CloseAck, SignalAck -- is silently ignored,
    processed without error and without emitting any ack, rather than
    rejected. -/
theorem process_malformed_packet (pipelines : List Nat) (codec : CodecBehavior)
    (el : Element) :
    (el.psGuidAttr = none → process pipelines codec el = .error .missingPSGuid)
    ∧ (∀ s, el.psGuidAttr = some s → parseUUID s.toList = none →
        process pipelines codec el = .error .invalidGuid)
    ∧ (∀ s gv t, el.psGuidAttr = some s → parseUUID s.toList = some gv →
        el.tag = "Data" → el.text = some t → t ≠ "" → pyB64Decode t = none →
        process pipelines codec el = .error .invalidBase64)
    ∧ (∀ s gv, el.psGuidAttr = some s → parseUUID s.toList = some gv →
        el.tag ∉ ["Close", "Command", "Data", "Signal"] →
        process pipelines codec el = .ok [])
    ∧ (∀ s gv, el.psGuidAttr = some s → parseUUID s.toList = some gv →
        el.tag ∈ ["CommandAck", "DataAck", "CloseAck", "SignalAck"] →
        process pipelines codec el = .ok []) := by
  refine ⟨?_, ?_, ?_, ?_, ?_⟩
  · intro hattr
    simp [process, hattr]
  · intro s hattr hparse
    have hparse' : parseUUID s.data = none := hparse
    simp [process, hattr, hparse']
  · intro s gv t hattr hparse htag htext htne hdec
    have hparse' : parseUUID s.data = some gv := hparse
    simp [process, hattr, hparse', htag, processDataAcks, htext, htne, hdec]
  · intro s gv hattr hparse htag
    simp only [List.mem_cons, List.not_mem_nil, or_false, not_or] at htag
    obtain ⟨h1, h2, h3, h4⟩ := htag
    exact Lemmas.process_ignored_tag hattr hparse h1 h2 h3 h4
  · intro s gv hattr hparse htag
    simp only [List.mem_cons, List.not_mem_nil, or_false] at htag
    rcases htag with h | h | h | h <;>
      refine Lemmas.process_ignored_tag hattr hparse ?_ ?_ ?_ ?_ <;>
      rw [h] <;> decide

/-- Witness for `process_malformed_packet`: a missing `PSGuid`, an invalid
    GUID string, a Data body `"QQ"` rejected by the lenient base64 decoder
    (dangling quad), a Data body `"!"` accepted with the non-alphabet
    character discarded, and the ignored tags `Foo` (outside the eight-tag
    set) and `DataAck` (an ack tag), each at a concrete packet. -/
theorem process_malformed_packet_witness :
    process [] ⟨true, 0⟩ ⟨"Data", none, none, none⟩ = .error .missingPSGuid
    ∧ process [] ⟨true, 0⟩ ⟨"Data", some "xyz", none, none⟩ = .error .invalidGuid
    ∧ pyB64Decode "QQ" = none
    ∧ process [] ⟨true, 0⟩
        ⟨"Data", some "00000000-0000-0000-0000-000000000000", none, some "QQ"⟩
        = .error .invalidBase64
    ∧ pyB64Decode "!" = some []
    ∧ process [] ⟨true, 0⟩
        ⟨"Data", some "00000000-0000-0000-0000-000000000000", none, some "!"⟩
        = .ok [Ack.dataAck none]
    ∧ process [] ⟨true, 0⟩
        ⟨"Foo", some "00000000-0000-0000-0000-000000000000", none, none⟩ = .ok []
    ∧ process [] ⟨true, 0⟩
        ⟨"DataAck", some "00000000-0000-0000-0000-000000000000", none, none⟩ = .ok [] :=
  ⟨(process_malformed_packet [] ⟨true, 0⟩ ⟨"Data", none, none, none⟩).1 rfl,
   (process_malformed_packet [] ⟨true, 0⟩ ⟨"Data", some "xyz", none, none⟩).2.1
     "xyz" rfl (by set_option maxRecDepth 10000 in decide),
   by decide,
   (process_malformed_packet [] ⟨true, 0⟩
      ⟨"Data", some "00000000-0000-0000-0000-000000000000", none, some "QQ"⟩).2.2.1
     "00000000-0000-0000-0000-000000000000" 0 "QQ" rfl
     (by set_option maxRecDepth 10000 in decide) rfl rfl (by decide) (by decide),
   by decide,
   by set_option maxRecDepth 10000 in decide,
   (process_malformed_packet [] ⟨true, 0⟩
      ⟨"Foo", some "00000000-0000-0000-0000-000000000000", none, none⟩).2.2.2.1
     "00000000-0000-0000-0000-000000000000" 0 rfl
     (by set_option maxRecDepth 10000 in decide)
     (by set_option maxRecDepth 10000 in decide),
   (process_malformed_packet [] ⟨true, 0⟩
      ⟨"DataAck", some "00000000-0000-0000-0000-000000000000", none, none⟩).2.2.2.2
     "00000000-0000-0000-0000-000000000000" 0 rfl
     (by set_option maxRecDepth 10000 in decide)
     (by set_option maxRecDepth 10000 in decide)⟩

/-- C3 counterexample: the claim fails on a single chunk containing more than
    one complete packet.  The chunks `[97,10,98,10]` and `[99,10]` are
    non-empty, and the stream `"a\nb\nc\n"` should frame as the packets
    `"a"`, `"b"`, `"c"`; but the read loop scans only the new chunk for its
    first line feed, so the leftover `"b\n"` stays buffered and is glued to
    `"c"`, producing the corrupt packet `[98,10,99]`. -/
theorem readLoop_multi_packet_chunk_counterexample :
    (∀ c ∈ [[97, 10, 98, 10], [99, 10]], c ≠ ([] : List Nat))
    ∧ readLoop [] [[97, 10, 98, 10], [99, 10]]
        ≠ splitPackets ([[97, 10, 98, 10], [99, 10]] : List (List Nat)).flatten
    ∧ readLoop [] [[97, 10, 98, 10], [99, 10]] = ([[97], [98, 10, 99]], [])
    ∧ splitPackets [97, 10, 98, 10, 99, 10] = ([[97], [98], [99]], []) := by
  decide

/-- C3 (amended): for every inbound byte stream split into non-empty read
    chunks **each containing at most one line feed**, the read loop
    reconstructs exactly the maximal line-feed split of the stream: the
    bytes of a chunk up to its first line feed, appended to the buffer, form
    one packet, the bytes after it start the new buffer, and packets
    straddling chunk boundaries are reassembled intact.  (A chunk holding
    more than one complete packet is mis-framed, see the counterexample.) -/
theorem readLoop_reconstructs_packets (chunks : List (List Nat))
    (hne : ∀ c ∈ chunks, c ≠ []) (hone : ∀ c ∈ chunks, c.count 10 ≤ 1) :
    readLoop [] chunks = splitPackets chunks.flatten := by
  have := Lemmas.readLoop_eq_splitPackets chunks [] (by simp) hone
  simpa using this

/-- Witness for `readLoop_reconstructs_packets` on chunks that straddle a
    packet boundary. -/
theorem readLoop_reconstructs_packets_witness :
    (∀ c ∈ [[97, 98], [99, 10], [100, 10]], c ≠ ([] : List Nat))
    ∧ (∀ c ∈ [[97, 98], [99, 10], [100, 10]], (c : List Nat).count 10 ≤ 1)
    ∧ readLoop [] [[97, 98], [99, 10], [100, 10]]
        = splitPackets ([[97, 98], [99, 10], [100, 10]] : List (List Nat)).flatten :=
  ⟨by decide, by decide,
   readLoop_reconstructs_packets [[97, 98], [99, 10], [100, 10]] (by decide) (by decide)⟩

/-- C2: for every payload, stream type and optional GUID, `ps_data_packet`
    produces exactly `<Data Stream='Default'|'PromptResponse' PSGuid='g'>`
    followed by the verbatim base64 of the payload, `</Data>` and a single
    line feed, which is the only line feed in the packet; `ps_guid_packet`
    produces exactly `<Tag PSGuid='g' />` plus a single line feed (the only
    one, provided the tag itself has none); `g` is the 8-4-4-4-12 lowercase
    hyphenated hex rendering of the GUID, and a missing GUID is rendered as
    the all-zero GUID. -/
theorem data_and_guid_packet_format (payload : List Nat) (st : StreamType)
    (g : Option Nat) (tag : String) :
    (psDataPacket payload st g =
      "<Data Stream='".toList
        ++ (if st = StreamType.default then "Default".toList else "PromptResponse".toList)
        ++ "' PSGuid='".toList ++ uuidStr (g.getD 0) ++ "'>".toList
        ++ b64encode payload ++ "</Data>".toList ++ ['\n'])
    ∧ (psDataPacket payload st g).count '\n' = 1
    ∧ (psGuidPacket tag g =
        '<' :: tag.toList ++ " PSGuid='".toList ++ uuidStr (g.getD 0)
          ++ "' />".toList ++ ['\n'])
    ∧ ('\n' ∉ tag.toList → (psGuidPacket tag g).count '\n' = 1)
    ∧ (∃ q1 q2 q3 q4 q5 : List Char,
        uuidStr (g.getD 0) = q1 ++ '-' :: q2 ++ '-' :: q3 ++ '-' :: q4 ++ '-' :: q5
        ∧ q1.length = 8 ∧ q2.length = 4 ∧ q3.length = 4 ∧ q4.length = 4 ∧ q5.length = 12
        ∧ ∀ c, c ∈ q1 ++ q2 ++ q3 ++ q4 ++ q5 → c ∈ hexLowerChars)
    ∧ psDataPacket payload st none = psDataPacket payload st (some 0)
    ∧ psGuidPacket tag none = psGuidPacket tag (some 0) := by
  refine ⟨rfl, ?_, rfl, ?_, Lemmas.uuidStr_canonical _, rfl, rfl⟩
  · unfold psDataPacket
    simp only [List.count_append, List.count_cons]
    rw [Lemmas.count_newline_b64encode, Lemmas.count_newline_uuidStr]
    rcases em (st = StreamType.default) with h | h <;> simp [h]
  · intro htag
    unfold psGuidPacket
    simp only [List.count_cons, List.count_append]
    rw [Lemmas.count_newline_uuidStr, List.count_eq_zero.mpr htag]
    decide

/-- Witness for `data_and_guid_packet_format` at a concrete payload, stream,
    GUID and tag, discharging the no-newline-in-tag hypothesis. -/
theorem data_and_guid_packet_format_witness :
    '\n' ∉ "CloseAck".toList
    ∧ (psGuidPacket "CloseAck" (some 5)).count '\n' = 1
    ∧ (psDataPacket [0, 255, 10] StreamType.default (some 5)).count '\n' = 1 :=
  ⟨by decide,
   (data_and_guid_packet_format [0, 255, 10] StreamType.default (some 5) "CloseAck").2.2.2.1
     (by decide),
   (data_and_guid_packet_format [0, 255, 10] StreamType.default (some 5) "CloseAck").2.1⟩

/-- C4: an exception while processing one inbound packet is handled by
    transitioning the pool to Broken -- when its state is Opened or Broken --
    with an ErrorRecord whose activity is "Parsing PSRP msg", reason
    "Unknown result", target `RunspacePool(id)`, category ReadError and
    fully-qualified error id `ProcessRunspaceMessageFailure`; pending codec
    bytes are flushed and the read loop exits.  In any other pool state the
    exception propagates out of the read loop. -/
theorem read_loop_error_policy (st : RunspacePoolState) (msg rpid : String)
    (pending : Option (List Nat)) :
    ((st = .Opened ∨ st = .Broken) →
      handleReadLoopError st msg rpid pending =
        .brokenFlushExit
          { message := msg, category := .ReadError,
            activity := some "Parsing PSRP msg", reason := some "Unknown result",
            targetName := some ("RunspacePool(" ++ rpid ++ ")"),
            targetType := some "RunspaceThread",
            fullyQualifiedErrorId := "ProcessRunspaceMessageFailure" } pending)
    ∧ (¬(st = .Opened ∨ st = .Broken) →
        handleReadLoopError st msg rpid pending = .propagate) := by
  constructor
  · intro h
    simp [handleReadLoopError, h, readLoopErrorRecord]
  · intro h
    simp [handleReadLoopError, h]

/-- Witness for `read_loop_error_policy` in the Opened state with pending
    codec bytes, and in the Closed state. -/
theorem read_loop_error_policy_witness :
    handleReadLoopError .Opened "boom" "abcd" (some [1, 2]) =
      .brokenFlushExit
        { message := "boom", category := .ReadError,
          activity := some "Parsing PSRP msg", reason := some "Unknown result",
          targetName := some ("RunspacePool(" ++ "abcd" ++ ")"),
          targetType := some "RunspaceThread",
          fullyQualifiedErrorId := "ProcessRunspaceMessageFailure" } (some [1, 2])
    ∧ handleReadLoopError .Closed "boom" "abcd" none = .propagate :=
  ⟨(read_loop_error_policy .Opened "boom" "abcd" (some [1, 2])).1 (Or.inl rfl),
   (read_loop_error_policy .Closed "boom" "abcd" none).2 (by simp)⟩

/-- C6 counterexample: closing a live pipeline never hands the drained
    `data_to_send()` bytes to the transport -- `PipelineThread.close` runs
    `_ = self.runspace.data_to_send()` and discards the result -- so the
    pipeline's pending outbound PSRP data is *not* put on the wire before
    `CloseAck`.  The concrete close trace for a Running pipeline with GUID 7
    contains no transport send at all. -/
theorem close_discards_pending_counterexample :
    CloseStep.drainSent ∉ processCloseSteps .Running 7
    ∧ processCloseSteps .Running 7 =
        [CloseStep.popPipeline 7, CloseStep.beginStop, CloseStep.codecClose,
         CloseStep.drainDiscarded, CloseStep.enqueueSentinel, CloseStep.joinThread,
         CloseStep.writeCloseAck (some 7)] :=
  ⟨by simp [processCloseSteps, pipelineCloseSteps], rfl⟩

/-- C6 (amended): on `<Close>` for a live pipeline the close sequence runs
    (`begin_stop` exactly when the state is Running, then codec `close`,
    then the pending outbound bytes are drained from the codec **and
    discarded**, then the sentinel is enqueued), the worker thread is
    joined, and `CloseAck(g)` is emitted only after the join, as the last
    step; no pending outbound data is put on the wire during the close. -/
theorem pipeline_close_sequence (st : PSInvocationState) (g : Nat) :
    processCloseSteps st g =
      CloseStep.popPipeline g
        :: ((if st = .Running then [CloseStep.beginStop] else [])
            ++ [CloseStep.codecClose, CloseStep.drainDiscarded,
                CloseStep.enqueueSentinel, CloseStep.joinThread,
                CloseStep.writeCloseAck (some g)])
    ∧ CloseStep.drainSent ∉ processCloseSteps st g
    ∧ (processCloseSteps st g).getLast? = some (CloseStep.writeCloseAck (some g))
    ∧ (CloseStep.beginStop ∈ processCloseSteps st g ↔ st = .Running)
    ∧ ∃ l1 l2, processCloseSteps st g = l1 ++ CloseStep.joinThread :: l2
        ∧ CloseStep.writeCloseAck (some g) ∈ l2
        ∧ CloseStep.writeCloseAck (some g) ∉ l1 := by
  cases st
  case Running =>
    refine ⟨rfl, ?_, rfl, ?_,
      ⟨[CloseStep.popPipeline g, CloseStep.beginStop, CloseStep.codecClose,
        CloseStep.drainDiscarded, CloseStep.enqueueSentinel],
       [CloseStep.writeCloseAck (some g)], rfl, by simp, by simp⟩⟩
    · simp [processCloseSteps, pipelineCloseSteps]
    · simp [processCloseSteps, pipelineCloseSteps]
  all_goals
    refine ⟨rfl, ?_, rfl, ?_,
      ⟨[CloseStep.popPipeline g, CloseStep.codecClose,
        CloseStep.drainDiscarded, CloseStep.enqueueSentinel],
       [CloseStep.writeCloseAck (some g)], rfl, by simp, by simp⟩⟩
  all_goals simp [processCloseSteps, pipelineCloseSteps]

/-- C7: after the host-call wait wakes (call id present in the result map,
    or the pipeline's state has left Running), the caller pops and returns
    the stored value; a stored ErrorRecord raises the host-call-failed
    exception instead (also popped); and when the id is absent -- which by the
    wake condition means the pipeline left Running -- the caller unwinds via
    `sys.exit()`, the cooperative-termination signal. -/
theorem host_call_rendezvous (callId : Nat) (results : List (Nat × PSVal))
    (st : PSInvocationState) (hwake : hostWakeCondition callId results st) :
    (∀ m, results.lookup callId = some (PSVal.errorRecord m) →
      sendDataWithResponse callId results =
        (HostCallOutcome.raiseHostCallFailed ("Received error from host call: " ++ m),
         removeKey results callId))
    ∧ (∀ n, results.lookup callId = some (PSVal.value n) →
        sendDataWithResponse callId results =
          (HostCallOutcome.ret (PSVal.value n), removeKey results callId))
    ∧ (results.lookup callId = none →
        sendDataWithResponse callId results = (HostCallOutcome.exitScript, results)
        ∧ st ≠ PSInvocationState.Running) := by
  refine ⟨?_, ?_, ?_⟩
  · intro m hm
    simp [sendDataWithResponse, hm]
  · intro n hn
    simp [sendDataWithResponse, hn]
  · intro hn
    refine ⟨by simp [sendDataWithResponse, hn], ?_⟩
    rcases hwake with h | h
    · rw [hn] at h
      simp at h
    · exact h

/-- Witness for `host_call_rendezvous`: a successful call, a failed call,
    and a teardown wake, at concrete maps and states. -/
theorem host_call_rendezvous_witness :
    hostWakeCondition 1 [(1, PSVal.value 7)] .Running
    ∧ sendDataWithResponse 1 [(1, PSVal.value 7)] =
        (HostCallOutcome.ret (PSVal.value 7), removeKey [(1, PSVal.value 7)] 1)
    ∧ sendDataWithResponse 2 [(2, PSVal.errorRecord "denied")] =
        (HostCallOutcome.raiseHostCallFailed ("Received error from host call: " ++ "denied"),
         removeKey [(2, PSVal.errorRecord "denied")] 2)
    ∧ sendDataWithResponse 3 [] = (HostCallOutcome.exitScript, [])
    ∧ PSInvocationState.Stopping ≠ PSInvocationState.Running :=
  ⟨Or.inl (by decide),
   (host_call_rendezvous 1 [(1, PSVal.value 7)] .Running (Or.inl (by decide))).2.1 7 rfl,
   (host_call_rendezvous 2 [(2, PSVal.errorRecord "denied")] .Running
      (Or.inl (by decide))).1 "denied" rfl,
   ((host_call_rendezvous 3 [] .Stopping (Or.inr (by decide))).2.2 rfl).1,
   ((host_call_rendezvous 3 [] .Stopping (Or.inr (by decide))).2.2 rfl).2⟩

/-- C8 counterexample: the error record written for an uncaught script
    exception carries reason and fully-qualified error id
    `UncaughtPythonException`, not `UncaughtScriptException` as the claim
    states. -/
theorem uncaught_error_naming_counterexample :
    execActions (.otherError "boom") =
      [ExecAction.writeErrorRecord .NotSpecified (some "UncaughtPythonException")
         "UncaughtPythonException",
       ExecAction.complete, ExecAction.sendData]
    ∧ ExecAction.writeErrorRecord .NotSpecified (some "UncaughtScriptException")
         "UncaughtScriptException"
        ∉ execActions (.otherError "boom") := by
  decide

/-- C8 (amended): any execution failure other than a syntax error or the
    cooperative-termination signal makes the executor call the pipeline's
    `write_error` with category NotSpecified, reason
    `UncaughtPythonException` and fully-qualified error id
    `UncaughtPythonException`, then `complete()` (never a Failed state
    transition, never `stop()`), then drain once. -/
theorem exec_uncaught_error_policy (msg : String) :
    execActions (.otherError msg) =
      [ExecAction.writeErrorRecord .NotSpecified (some "UncaughtPythonException")
         "UncaughtPythonException",
       ExecAction.complete, ExecAction.sendData]
    ∧ (∀ e, ExecAction.changeStateFailed e ∉ execActions (.otherError msg))
    ∧ ExecAction.stop ∉ execActions (.otherError msg) := by
  refine ⟨rfl, ?_, by simp [execActions]⟩
  intro e
  simp [execActions]

/-- C9 counterexample: a named parameter's value also lands in the
    positional argument list -- `arguments.append(raw_value)` runs for every
    pair -- so the positional args are *not* the values of the unnamed pairs
    only. -/
theorem positional_args_counterexample :
    (extractParams [((some "x" : Option String), (2 : Nat))]).1 = [2]
    ∧ unnamedValues [((some "x" : Option String), (2 : Nat))] = []
    ∧ ([2] : List Nat) ≠ [] := by
  refine ⟨rfl, rfl, by simp⟩

/-- C9 (amended): the Cmdlet facade's positional args are the values of
    **all** pairs of the parameter list, in order (named pairs included),
    and its named-parameter map sends each name to the value of the last
    pair carrying that name. -/
theorem cmdlet_parameters (α : Type) (raw : List (Option String × α)) :
    (extractParams raw).1 = raw.map Prod.snd
    ∧ ∀ m, (extractParams raw).2 m = lastNamed raw m := by
  unfold extractParams
  rw [Lemmas.extractParamsGo_spec]
  constructor
  · simp
  · intro m
    simp only
    cases hl : lastNamed raw m <;> simp [hl]

/-- C10: on POSIX the pipe name is
    `{TMPDIR|/tmp}/CoreFxPipe_PSHost.{start_time}.{pid}.None.{name}` where
    `start_time` is characters `[1..9]` of the 16-digit uppercase
    big-endian hex rendering of `116444736000000000 + 10 * microseconds
    since the Unix epoch`, after stripping leading zeros; and the
    derivation is deterministic. -/
theorem get_pipe_name_posix_format (tmpdir : Option String) (pid usecs : Nat)
    (name : String) (hft : fileTimeOfUsecs usecs < 2 ^ 64) :
    getPipeNamePosix tmpdir pid usecs name =
      joinPath (tmpdir.getD "/tmp")
        ("CoreFxPipe_PSHost."
          ++ String.mk ((((hexNUpper 16 (116444736000000000 + usecs * 10)).dropWhile
                (fun c => c = '0')).drop 1).take 8)
          ++ "." ++ toString pid ++ ".None." ++ name)
    ∧ getPipeNamePosix tmpdir pid usecs name = getPipeNamePosix tmpdir pid usecs name := by
  refine ⟨?_, rfl⟩
  unfold getPipeNamePosix fileTimeOfUsecs
  rw [Lemmas.b16_structPack_eq_hexN]

/-- Witness for `get_pipe_name_posix_format` at the fixture pid 1234,
    create time 1700000000.0 UTC (= 1700000000000000 microseconds), process
    name "pwsh": FILETIME 133444736000000000 = 0x01DA1747C66D0000, so
    `start_time` is "DA1747C6". -/
theorem get_pipe_name_posix_format_witness :
    fileTimeOfUsecs 1700000000000000 < 2 ^ 64
    ∧ getPipeNamePosix none 1234 1700000000000000 "pwsh" =
        joinPath ((none : Option String).getD "/tmp")
          ("CoreFxPipe_PSHost."
            ++ String.mk ((((hexNUpper 16 (116444736000000000 + 1700000000000000 * 10)).dropWhile
                  (fun c => c = '0')).drop 1).take 8)
            ++ "." ++ toString 1234 ++ ".None." ++ "pwsh")
    ∧ getPipeNamePosix none 1234 1700000000000000 "pwsh"
        = "/tmp/CoreFxPipe_PSHost.DA1747C6.1234.None.pwsh" :=
  ⟨by decide,
   (get_pipe_name_posix_format none 1234 1700000000000000 "pwsh" (by decide)).1,
   by decide⟩

end PsrpServer
